import Mathlib

/-!
Verification of the session-scoped rewrite pipeline of scholarwriterpro.

The definitions below are a shallow embedding of the TypeScript sources:
- src/server/services/gemini.ts (generateHighlights, mergeOverlappingHighlights)
- src/server/storage.ts (DatabaseStorage)
- src/server/routes.ts (the /api/paraphrase and session endpoints)
- src/shared/schema.ts (paraphraseRequestSchema, table defaults)

JavaScript strings are modelled as List Char, epoch times as Nat
(milliseconds), and database rows as Lean structures.
-/

namespace ScholarWriterPro

/-- The three change kinds of gemini.ts (field name `type` in the source). -/
inductive HighlightType where
  | synonym
  | grammar
  | tone
deriving DecidableEq

/-- One oracle claim, interface HighlightChange of gemini.ts.
`startIndex` is the oracle's self-reported offset (a JS number, modelled
as Int since it is not trusted to be in range). -/
structure HighlightChange where
  original : List Char
  paraphrased : List Char
  type : HighlightType
  startIndex : Int
  endIndex : Int
deriving DecidableEq

/-- One reconstructed span. The source field `end` is a Lean keyword and is
named `stop` here. -/
structure Highlight where
  start : Nat
  stop : Nat
  type : HighlightType
deriving DecidableEq

/-- JavaScript String.prototype.indexOf(pattern, fromIndex) on the model:
the fromIndex is clamped into [0, text.length], and the result is the
first position at or above it where pattern literally occurs (for the
empty pattern this is the clamped fromIndex itself, as in JS); none
models the JS return value -1. -/
def strIndexOf (text pattern : List Char) (fromIndex : Int) : Option Nat :=
  let lo : Nat := (min (max fromIndex 0) (text.length : Int)).toNat
  (List.range (text.length + 1)).find? fun i =>
    decide (lo ≤ i) && pattern.isPrefixOf (text.drop i)

/-- The comparator (a, b) => a.startIndex - b.startIndex of gemini.ts line
147, as the ordering it induces. -/
def changeLE (a b : HighlightChange) : Prop :=
  a.startIndex ≤ b.startIndex

instance : DecidableRel changeLE := fun a b => by
  unfold changeLE; infer_instance

instance : IsTotal HighlightChange changeLE :=
  ⟨fun a b => Int.le_total a.startIndex b.startIndex⟩

instance : IsTrans HighlightChange changeLE :=
  ⟨fun _ _ _ h₁ h₂ => le_trans h₁ h₂⟩

/-- changes.sort((a, b) => a.startIndex - b.startIndex): JS Array sort is
stable, modelled by stable insertion sort. This is also the state of the
caller's `changes` array after generateHighlights returns, since JS sorts
the array in place. -/
def sortChanges (changes : List HighlightChange) : List HighlightChange :=
  List.insertionSort changeLE changes

/-- The comparator (a, b) => a.start - b.start of mergeOverlappingHighlights. -/
def highlightLE (a b : Highlight) : Prop :=
  a.start ≤ b.start

instance : DecidableRel highlightLE := fun a b => by
  unfold highlightLE; infer_instance

instance : IsTotal Highlight highlightLE :=
  ⟨fun a b => Nat.le_total a.start b.start⟩

instance : IsTrans Highlight highlightLE :=
  ⟨fun _ _ _ h₁ h₂ => le_trans h₁ h₂⟩

/-- The loop of mergeOverlappingHighlights (gemini.ts lines 177-189):
coalesce the running span with the next candidate when it starts at or
before the running end and has the same kind, else emit and restart. -/
def mergeLoop (current : Highlight) : List Highlight → List Highlight
  | [] => [current]
  | next :: rest =>
    if next.start ≤ current.stop ∧ next.type = current.type then
      mergeLoop { current with stop := max current.stop next.stop } rest
    else
      current :: mergeLoop next rest

/-- mergeOverlappingHighlights of gemini.ts: sort by start (stable), then
run the coalescing loop. -/
def mergeOverlappingHighlights (highlights : List Highlight) : List Highlight :=
  match List.insertionSort highlightLE highlights with
  | [] => []
  | h :: t => mergeLoop h t

/-- The body of the loop of generateHighlights (gemini.ts lines 149-160):
locate change.paraphrased in the text from change.startIndex; a hit
becomes the candidate span, a miss drops the claim. -/
def locateChange (text : List Char) (c : HighlightChange) : Option Highlight :=
  (strIndexOf text c.paraphrased c.startIndex).map fun i =>
    { start := i, stop := i + c.paraphrased.length, type := c.type }

/-- generateHighlights of gemini.ts: sort the claims by startIndex, keep
the locatable ones as candidate spans, and merge. -/
def generateHighlights (text : List Char) (changes : List HighlightChange) :
    List Highlight :=
  mergeOverlappingHighlights ((sortChanges changes).filterMap (locateChange text))

/-- A claim survives when its rewrittenPhrase occurs in the text at or
after its reported offset (the phraseIndex !== -1 test of gemini.ts). -/
def changeSurvives (text : List Char) (c : HighlightChange) : Bool :=
  (strIndexOf text c.paraphrased c.startIndex).isSome

/-- The content of the caller's `changes` array after generateHighlights
returns: gemini.ts line 147 calls changes.sort(...), which reorders the
given array in place, so the caller observes the sorted array. -/
def claimsArrayAfterCall (changes : List HighlightChange) : List HighlightChange :=
  sortChanges changes

/-! ### Session store (src/server/storage.ts, src/shared/schema.ts) -/

/-- Session TTL: the two hours added by expiresAt.setHours(getHours() + 2)
in routes.ts, in epoch milliseconds (the model keeps the clock in UTC, so
the setHours arithmetic is an exact two-hour shift). -/
def TTL_MS : Nat := 2 * 60 * 60 * 1000

/-- One row of paraphrasing_sessions (schema.ts). Times are epoch millis. -/
structure SessionRecord where
  sessionId : String
  originalText : String
  paraphrasedText : Option String
  mode : String
  language : String
  citationFormat : String
  highlights : Option (List Highlight)
  createdAt : Nat
  expiresAt : Nat
deriving DecidableEq

/-- One row of uploaded_files (schema.ts). -/
structure UploadedFileRecord where
  sessionId : String
  fileName : String
  filePath : String
  fileType : String
  fileSize : Nat
  extractedText : Option String
  uploadedAt : Nat
  expiresAt : Nat
deriving DecidableEq

/-- The two tables the session pipeline mutates. -/
structure Store where
  sessions : List SessionRecord
  files : List UploadedFileRecord
deriving DecidableEq

/-- The session row built by POST /api/paraphrase (routes.ts lines 33-47):
expiresAt is the handler's new Date() plus two hours, computed before the
insert; createdAt is the database defaultNow() evaluated at the insert
itself (schema.ts), hence a separate instant dbNow. -/
def createSessionRecord (handlerNow dbNow : Nat)
    (sessionId originalText mode language citationFormat : String) :
    SessionRecord :=
  { sessionId := sessionId
    originalText := originalText
    paraphrasedText := none
    mode := mode
    language := language
    citationFormat := citationFormat
    highlights := none
    createdAt := dbNow
    expiresAt := handlerNow + TTL_MS }

/-- The file row built by POST /api/upload (routes.ts lines 95-111):
expiresAt is the handler clock plus two hours, uploadedAt the database
defaultNow() at insert time. -/
def createUploadedFileRecord (handlerNow dbNow : Nat)
    (sessionId fileName filePath fileType : String) (fileSize : Nat)
    (extractedText : String) : UploadedFileRecord :=
  { sessionId := sessionId
    fileName := fileName
    filePath := filePath
    fileType := fileType
    fileSize := fileSize
    extractedText := some extractedText
    uploadedAt := dbNow
    expiresAt := handlerNow + TTL_MS }

/-- DatabaseStorage.deleteExpiredFiles (storage.ts lines 92-110): delete
rows whose expiresAt is strictly below now (drizzle lt), in both tables.
A row survives exactly when its expiresAt is not below now. -/
def deleteExpiredFiles (now : Nat) (s : Store) : Store :=
  { sessions := s.sessions.filter fun r => !decide (r.expiresAt < now)
    files := s.files.filter fun r => !decide (r.expiresAt < now) }

/-- DatabaseStorage.deleteFilesBySession: delete uploaded_files rows whose
sessionId matches. -/
def deleteFilesBySession (sessionId : String) (s : Store) : Store :=
  { s with files := s.files.filter fun r => !decide (r.sessionId = sessionId) }

/-- Deletion of the paraphrasing_sessions row inside deleteUserSession
(storage.ts lines 146-148). -/
def deleteSessionRows (sessionId : String) (s : Store) : Store :=
  { s with sessions := s.sessions.filter fun r => !decide (r.sessionId = sessionId) }

/-- The try block of DatabaseStorage.deleteUserSession with a possible
database rejection injected at each await: the resulting store together
with the error the block would raise, if any (none when it completes). -/
def deleteUserSessionRun (fileDelFails sessDelFails : Bool)
    (sessionId : String) (s : Store) : Store × Option String :=
  if fileDelFails then (s, some "file delete failed")
  else
    let s1 := deleteFilesBySession sessionId s
    if sessDelFails then (s1, some "session delete failed")
    else (deleteSessionRows sessionId s1, none)

/-- DatabaseStorage.deleteUserSession (storage.ts lines 140-154): the
catch clause logs any error and returns normally, so the method yields a
plain store and never rejects. -/
def deleteUserSession (fileDelFails sessDelFails : Bool)
    (sessionId : String) (s : Store) : Store :=
  (deleteUserSessionRun fileDelFails sessDelFails sessionId s).1

/-- The promise deleteUserSession hands back to its awaiters: always a
resolution, modelled as an Except that is always ok. -/
def deleteUserSessionExcept (fileDelFails sessDelFails : Bool)
    (sessionId : String) (s : Store) : Except String Store :=
  Except.ok (deleteUserSession fileDelFails sessDelFails sessionId s)

/-- An HTTP response of the session endpoints. -/
structure EndpointResponse where
  status : Nat
  message : String
deriving DecidableEq

/-- DELETE /api/session/:sessionId (routes.ts lines 164-183): awaiting
deleteUserSession inside the try block; a rejection would hit the catch
and answer 500, a resolution answers 200. -/
def handleDeleteSession (fileDelFails sessDelFails : Bool)
    (sessionId : String) (s : Store) : EndpointResponse × Store :=
  match deleteUserSessionExcept fileDelFails sessDelFails sessionId s with
  | Except.ok s' => ({ status := 200, message := "Session cleared successfully" }, s')
  | Except.error _ => ({ status := 500, message := "Failed to clear session" }, s)

/-- POST /api/session/:sessionId/cleanup (routes.ts lines 186-205): same
shape as the DELETE endpoint. -/
def handleCleanupSession (fileDelFails sessDelFails : Bool)
    (sessionId : String) (s : Store) : EndpointResponse × Store :=
  match deleteUserSessionExcept fileDelFails sessDelFails sessionId s with
  | Except.ok s' => ({ status := 200, message := "User session cleaned up successfully" }, s')
  | Except.error _ => ({ status := 500, message := "Failed to cleanup session" }, s)

/-! ### Request validation and the paraphrase handler
(src/shared/schema.ts paraphraseRequestSchema, src/server/routes.ts) -/

/-- The raw JSON body of POST /api/paraphrase: each field may be absent. -/
structure ParaphraseInput where
  text : Option String
  mode : Option String
  language : Option String
  citationFormat : Option String
  styleMatching : Option Bool
deriving DecidableEq

/-- A validated request, the output type of paraphraseRequestSchema. -/
structure ParaphraseRequest where
  text : String
  mode : String
  language : String
  citationFormat : String
  styleMatching : Bool
deriving DecidableEq

/-- The mode enum of paraphraseRequestSchema. -/
def validModes : List String :=
  ["academic", "formal", "creative", "seo", "simplify"]

/-- The citationFormat enum of paraphraseRequestSchema. -/
def validCitationFormats : List String :=
  ["APA", "MLA", "Chicago"]

/-- paraphraseRequestSchema.parse (schema.ts lines 51-57): text must be a
present non-empty string; mode must be one of the five modes; language
defaults to English; citationFormat defaults to APA and, when present,
must be one of the three formats; styleMatching defaults to false. An
error models the thrown ZodError. -/
def parseParaphraseRequest (input : ParaphraseInput) :
    Except String ParaphraseRequest :=
  match input.text with
  | none => Except.error "Text is required"
  | some t =>
    if t.length < 1 then Except.error "Text is required"
    else
      match input.mode with
      | none => Except.error "Invalid mode"
      | some m =>
        if m ∈ validModes then
          if input.citationFormat.getD "APA" ∈ validCitationFormats then
            Except.ok
              { text := t
                mode := m
                language := input.language.getD "English"
                citationFormat := input.citationFormat.getD "APA"
                styleMatching := input.styleMatching.getD false }
          else Except.error "Invalid citation format"
        else Except.error "Invalid mode"

/-- The observable outcome of one POST /api/paraphrase request: HTTP
status, the store afterwards, and whether the Gemini oracle was invoked. -/
structure ParaphraseOutcome where
  status : Nat
  store : Store
  oracleCalled : Bool
deriving DecidableEq

/-- The POST /api/paraphrase handler (routes.ts lines 29-86): validate
(ZodError answers 400 before any other work), insert the pending session,
invoke the oracle (paraphraseText), update the session with the rewritten
text and the reconstructed highlights, answer 200; an oracle failure hits
the catch and answers 500 with the pending session left in place. -/
def handleParaphrase (handlerNow dbNow : Nat) (sessionId : String)
    (oracle : ParaphraseRequest → Except String (String × List HighlightChange))
    (input : ParaphraseInput) (s : Store) : ParaphraseOutcome :=
  match parseParaphraseRequest input with
  | Except.error _ => { status := 400, store := s, oracleCalled := false }
  | Except.ok req =>
    let rec0 := createSessionRecord handlerNow dbNow sessionId
      req.text req.mode req.language req.citationFormat
    let s1 : Store := { s with sessions := s.sessions ++ [rec0] }
    match oracle req with
    | Except.error _ => { status := 500, store := s1, oracleCalled := true }
    | Except.ok (ptext, changes) =>
      let hs := generateHighlights ptext.data changes
      let s2 : Store :=
        { s1 with
          sessions := s1.sessions.map fun r =>
            if r.sessionId = sessionId then
              { r with paraphrasedText := some ptext, highlights := some hs }
            else r }
      { status := 200, store := s2, oracleCalled := true }

/-- A concrete session row whose expiresAt is the sweep instant. -/
def sessionAtFive : SessionRecord :=
  { sessionId := "s1"
    originalText := "t"
    paraphrasedText := none
    mode := "academic"
    language := "English"
    citationFormat := "APA"
    highlights := none
    createdAt := 0
    expiresAt := 5 }

/-- A concrete uploaded-file row whose expiresAt is the sweep instant. -/
def fileAtFive : UploadedFileRecord :=
  { sessionId := "s1"
    fileName := "f.txt"
    filePath := "uploads/f"
    fileType := "text/plain"
    fileSize := 1
    extractedText := none
    uploadedAt := 0
    expiresAt := 5 }

/-- A store holding exactly the two records above. -/
def storeAtFive : Store :=
  { sessions := [sessionAtFive], files := [fileAtFive] }

/-! ### Helper lemmas about the Highlight Reconstructor -/

theorem isPrefixOf_length_le :
    ∀ p t : List Char, p.isPrefixOf t = true → p.length ≤ t.length
  | [], _, _ => Nat.zero_le _
  | _ :: _, [], h => by simp [List.isPrefixOf] at h
  | a :: as, b :: bs, h => by
    simp only [List.isPrefixOf, Bool.and_eq_true] at h
    exact Nat.succ_le_succ (isPrefixOf_length_le as bs h.2)

theorem strIndexOf_bound {text pattern : List Char} {fromIndex : Int} {i : Nat}
    (h : strIndexOf text pattern fromIndex = some i) :
    i + pattern.length ≤ text.length := by
  unfold strIndexOf at h
  have hmem := List.mem_of_find?_eq_some h
  have hp := List.find?_some h
  rw [List.mem_range, Nat.lt_succ_iff] at hmem
  have hpre : pattern.isPrefixOf (text.drop i) = true :=
    ((Bool.and_eq_true _ _).mp hp).2
  have hlen := isPrefixOf_length_le _ _ hpre
  rw [List.length_drop] at hlen
  omega

theorem locateChange_eq_some {text : List Char} {c : HighlightChange} {h : Highlight}
    (hc : locateChange text c = some h) :
    ∃ i, strIndexOf text c.paraphrased c.startIndex = some i ∧
      h = { start := i, stop := i + c.paraphrased.length, type := c.type } := by
  unfold locateChange at hc
  cases hidx : strIndexOf text c.paraphrased c.startIndex with
  | none => rw [hidx] at hc; simp at hc
  | some i =>
    rw [hidx] at hc
    simp only [Option.map_some', Option.some.injEq] at hc
    exact ⟨i, rfl, hc.symm⟩

theorem mergeLoop_preserves (P : Highlight → Prop)
    (hmax : ∀ a b : Highlight, P a → P b → P { a with stop := max a.stop b.stop }) :
    ∀ (l : List Highlight) (cur : Highlight), P cur → (∀ x ∈ l, P x) →
      ∀ h ∈ mergeLoop cur l, P h
  | [], cur, hcur, _, h, hh => by
    rw [mergeLoop] at hh
    rcases List.mem_singleton.mp hh with rfl
    exact hcur
  | next :: rest, cur, hcur, hl, h, hh => by
    rw [mergeLoop] at hh
    by_cases hc : next.start ≤ cur.stop ∧ next.type = cur.type
    · rw [if_pos hc] at hh
      exact mergeLoop_preserves P hmax rest _
        (hmax cur next hcur (hl next (List.mem_cons_self _ _)))
        (fun x hx => hl x (List.mem_cons_of_mem _ hx)) h hh
    · rw [if_neg hc] at hh
      rcases List.mem_cons.mp hh with rfl | hh'
      · exact hcur
      · exact mergeLoop_preserves P hmax rest next
          (hl next (List.mem_cons_self _ _))
          (fun x hx => hl x (List.mem_cons_of_mem _ hx)) h hh'

theorem mem_mergeOverlappingHighlights (P : Highlight → Prop)
    (hmax : ∀ a b : Highlight, P a → P b → P { a with stop := max a.stop b.stop })
    (l : List Highlight) (hl : ∀ x ∈ l, P x) :
    ∀ h ∈ mergeOverlappingHighlights l, P h := by
  unfold mergeOverlappingHighlights
  have hall : ∀ x ∈ List.insertionSort highlightLE l, P x := fun x hx =>
    hl x ((List.perm_insertionSort highlightLE l).mem_iff.mp hx)
  cases hs : List.insertionSort highlightLE l with
  | nil => simp
  | cons a t =>
    rw [hs] at hall
    exact mergeLoop_preserves P hmax t a
      (hall a (List.mem_cons_self _ _))
      (fun x hx => hall x (List.mem_cons_of_mem _ hx))

theorem mergeLoop_head :
    ∀ (l : List Highlight) (cur : Highlight), ∃ e rest,
      mergeLoop cur l = { start := cur.start, stop := e, type := cur.type } :: rest
  | [], cur => ⟨cur.stop, [], rfl⟩
  | next :: rest, cur => by
    rw [mergeLoop]
    by_cases hc : next.start ≤ cur.stop ∧ next.type = cur.type
    · rw [if_pos hc]
      exact mergeLoop_head rest { cur with stop := max cur.stop next.stop }
    · rw [if_neg hc]
      exact ⟨cur.stop, mergeLoop next rest, rfl⟩

theorem chain'_mergeLoop :
    ∀ (l : List Highlight) (cur : Highlight),
      List.Chain' (fun a b => a.stop < b.start ∨ a.type ≠ b.type) (mergeLoop cur l)
  | [], cur => by rw [mergeLoop]; exact List.chain'_singleton _
  | next :: rest, cur => by
    rw [mergeLoop]
    by_cases hc : next.start ≤ cur.stop ∧ next.type = cur.type
    · rw [if_pos hc]
      exact chain'_mergeLoop rest _
    · rw [if_neg hc]
      obtain ⟨e, r, hr⟩ := mergeLoop_head rest next
      rw [hr, List.chain'_cons]
      refine ⟨?_, hr ▸ chain'_mergeLoop rest next⟩
      rcases not_and_or.mp hc with h1 | h2
      · exact Or.inl (Nat.lt_of_not_le h1)
      · exact Or.inr fun heq => h2 heq.symm

theorem chain'_mergeOverlappingHighlights (l : List Highlight) :
    List.Chain' (fun a b => a.stop < b.start ∨ a.type ≠ b.type)
      (mergeOverlappingHighlights l) := by
  unfold mergeOverlappingHighlights
  cases List.insertionSort highlightLE l with
  | nil => exact List.chain'_nil
  | cons a t => exact chain'_mergeLoop t a

theorem orderedInsert_of_forall_le {c : HighlightChange} :
    ∀ l : List HighlightChange, (∀ x ∈ l, changeLE c x) →
      List.orderedInsert changeLE c l = c :: l
  | [], _ => rfl
  | d :: _, h => by
    rw [List.orderedInsert, if_pos (h d (List.mem_cons_self _ _))]

theorem filter_orderedInsert (p : HighlightChange → Bool) (c : HighlightChange) :
    ∀ l : List HighlightChange, List.Sorted changeLE l →
      (List.orderedInsert changeLE c l).filter p =
        if p c then List.orderedInsert changeLE c (l.filter p) else l.filter p
  | [], _ => by
    by_cases hpc : p c = true <;> simp [hpc]
  | d :: ds, hsort => by
    obtain ⟨hd, hds⟩ := List.sorted_cons.mp hsort
    have IH := filter_orderedInsert p c ds hds
    by_cases hcd : changeLE c d
    · rw [List.orderedInsert, if_pos hcd]
      by_cases hpc : p c = true
      · rw [if_pos hpc, List.filter_cons_of_pos hpc,
          orderedInsert_of_forall_le ((d :: ds).filter p) ?_]
        intro x hx
        rcases List.mem_cons.mp (List.mem_of_mem_filter hx) with rfl | hx'
        · exact hcd
        · exact Trans.trans hcd (hd x hx')
      · rw [if_neg hpc, List.filter_cons_of_neg hpc]
    · rw [List.orderedInsert, if_neg hcd]
      by_cases hpd : p d = true
      · rw [List.filter_cons_of_pos hpd, IH, List.filter_cons_of_pos hpd]
        by_cases hpc : p c = true
        · rw [if_pos hpc, if_pos hpc, List.orderedInsert, if_neg hcd]
        · rw [if_neg hpc, if_neg hpc]
      · rw [List.filter_cons_of_neg hpd, IH, List.filter_cons_of_neg hpd]

theorem filter_insertionSort (p : HighlightChange → Bool) :
    ∀ l : List HighlightChange,
      (List.insertionSort changeLE l).filter p =
        List.insertionSort changeLE (l.filter p)
  | [] => rfl
  | c :: cs => by
    rw [List.insertionSort,
      filter_orderedInsert p c _ (List.sorted_insertionSort changeLE cs),
      filter_insertionSort p cs]
    by_cases hpc : p c = true
    · rw [if_pos hpc, List.filter_cons_of_pos hpc, List.insertionSort]
    · rw [if_neg hpc, List.filter_cons_of_neg hpc]

theorem filterMap_filter_isSome {α β : Type} (f : α → Option β) :
    ∀ l : List α, (l.filter fun a => (f a).isSome).filterMap f = l.filterMap f
  | [] => rfl
  | a :: l => by
    cases hfa : f a with
    | none =>
      simp [List.filter_cons, List.filterMap_cons, hfa, filterMap_filter_isSome f l]
    | some b =>
      simp [List.filter_cons, List.filterMap_cons, hfa, filterMap_filter_isSome f l]

theorem changeSurvives_eq_isSome (text : List Char) (c : HighlightChange) :
    changeSurvives text c = (locateChange text c).isSome := by
  unfold changeSurvives locateChange
  cases strIndexOf text c.paraphrased c.startIndex <;> rfl

/-! ### Helper lemmas about validation -/

theorem parseParaphraseRequest_language {input : ParaphraseInput}
    {req : ParaphraseRequest} (h : parseParaphraseRequest input = Except.ok req) :
    req.language = input.language.getD "English" := by
  unfold parseParaphraseRequest at h
  repeat' split at h
  all_goals first
    | exact Except.noConfusion h
    | (cases h; rfl)

theorem parseParaphraseRequest_ok_inv {input : ParaphraseInput}
    {req : ParaphraseRequest} (h : parseParaphraseRequest input = Except.ok req) :
    input.text = some req.text ∧ 1 ≤ req.text.length ∧
      input.mode = some req.mode ∧ req.mode ∈ validModes ∧
      req.citationFormat = input.citationFormat.getD "APA" ∧
      req.citationFormat ∈ validCitationFormats := by
  unfold parseParaphraseRequest at h
  repeat' split at h
  all_goals try exact Except.noConfusion h
  cases h
  refine ⟨by assumption, by exact Nat.le_of_not_lt (by assumption), by assumption,
    by assumption, rfl, by assumption⟩

theorem parseParaphraseRequest_error_of_bad (input : ParaphraseInput)
    (hbad : input.text = some "" ∨
      (∃ m, input.mode = some m ∧ m ∉ validModes) ∨
      (∃ cf, input.citationFormat = some cf ∧ cf ∉ validCitationFormats)) :
    ∃ e, parseParaphraseRequest input = Except.error e := by
  cases hp : parseParaphraseRequest input with
  | error e => exact ⟨e, rfl⟩
  | ok req =>
    exfalso
    obtain ⟨htext, hlen, hmode, hm, hcfeq, hcf⟩ := parseParaphraseRequest_ok_inv hp
    rcases hbad with hb | ⟨m, hbm, hnot⟩ | ⟨cf, hbcf, hnot⟩
    · rw [hb] at htext
      injection htext with h2
      rw [← h2] at hlen
      exact absurd hlen (by decide)
    · rw [hbm] at hmode
      injection hmode with h2
      rw [h2] at hnot
      exact hnot hm
    · rw [hbcf] at hcfeq
      simp only [Option.getD_some] at hcfeq
      rw [hcfeq] at hcf
      exact hnot hcf

/-! ### Claim theorems -/

/-- Claim C1, counterexample: a claim whose rewrittenPhrase is the empty
string is located by indexOf at its (clamped) startIndex, never dropped,
so the output carries a zero-length span with start = stop, refuting
start < stop. -/
theorem generateHighlights_bounds_counterexample :
    ¬ ∀ h ∈ generateHighlights "a".data
        [{ original := "x".data, paraphrased := [],
           type := HighlightType.grammar, startIndex := 0, endIndex := 0 }],
      h.start < h.stop := by decide

/-- Claim C1 (amended): every reconstructed highlight satisfies
start ≤ stop ≤ length of the rewritten text, and when every claim has a
non-empty rewrittenPhrase the spans are strictly positive, start < stop. -/
theorem generateHighlights_bounds (text : List Char) (changes : List HighlightChange)
    (h : Highlight) (hmem : h ∈ generateHighlights text changes) :
    h.start ≤ h.stop ∧ h.stop ≤ text.length ∧
      ((∀ c ∈ changes, c.paraphrased ≠ []) → h.start < h.stop) := by
  unfold generateHighlights at hmem
  refine mem_mergeOverlappingHighlights
    (fun g => g.start ≤ g.stop ∧ g.stop ≤ text.length ∧
      ((∀ c ∈ changes, c.paraphrased ≠ []) → g.start < g.stop)) ?_ _ ?_ h hmem
  · rintro a b ⟨ha1, ha2, ha3⟩ ⟨hb1, hb2, hb3⟩
    exact ⟨le_trans ha1 (le_max_left _ _), max_le ha2 hb2,
      fun k => lt_of_lt_of_le (ha3 k) (le_max_left _ _)⟩
  · intro x hx
    obtain ⟨c, hc, hloc⟩ := List.mem_filterMap.mp hx
    obtain ⟨i, hidx, rfl⟩ := locateChange_eq_some hloc
    have hbound := strIndexOf_bound hidx
    refine ⟨Nat.le_add_right _ _, hbound, fun k => ?_⟩
    have hcmem : c ∈ changes :=
      (List.perm_insertionSort changeLE changes).mem_iff.mp hc
    have hlen : 0 < c.paraphrased.length := List.length_pos.mpr (k c hcmem)
    show i < i + c.paraphrased.length
    omega

/-- Witness for the amended C1 at a concrete input. -/
theorem generateHighlights_bounds_witness :
    ({ start := 0, stop := 2, type := HighlightType.synonym } : Highlight) ∈
        generateHighlights "ab".data
          [{ original := "a".data, paraphrased := "ab".data,
             type := HighlightType.synonym, startIndex := 0, endIndex := 2 }] ∧
      (∀ c ∈ [({ original := "a".data, paraphrased := "ab".data,
                 type := HighlightType.synonym, startIndex := 0,
                 endIndex := 2 } : HighlightChange)], c.paraphrased ≠ []) ∧
      (0 : Nat) < 2 ∧ 2 ≤ "ab".data.length := by
  have H := generateHighlights_bounds "ab".data
    [{ original := "a".data, paraphrased := "ab".data,
       type := HighlightType.synonym, startIndex := 0, endIndex := 2 }]
    { start := 0, stop := 2, type := HighlightType.synonym } (by decide)
  exact ⟨by decide, by decide, H.2.2 (by decide), H.2.1⟩

/-- Claim C2: in the reconstructed sequence, every adjacent pair (a, b)
satisfies a.stop ≤ b.start or differs in kind — touching or overlapping
same-kind spans never survive un-merged, whatever the interleaving of
kinds among the candidates. -/
theorem generateHighlights_sorted_coalesced (text : List Char)
    (changes : List HighlightChange) :
    List.Chain' (fun a b => a.stop < b.start ∨ a.type ≠ b.type)
      (generateHighlights text changes) := by
  unfold generateHighlights
  exact chain'_mergeOverlappingHighlights _

/-- Claim C3, counterexample: the handler computes expiresAt from its own
clock before the insert, while createdAt/uploadedAt are stamped by the
database defaultNow(); with the handler at 0 and the database at 1 the
record violates expiresAt = createdAt + 2h. -/
theorem ttl_exact_counterexample :
    (createSessionRecord 0 1 "s" "t" "academic" "English" "APA").expiresAt ≠
      (createSessionRecord 0 1 "s" "t" "academic" "English" "APA").createdAt + TTL_MS ∧
    (createUploadedFileRecord 0 1 "s" "f.txt" "uploads/f" "text/plain" 1 "x").expiresAt ≠
      (createUploadedFileRecord 0 1 "s" "f.txt" "uploads/f" "text/plain" 1 "x").uploadedAt
        + TTL_MS := by decide

/-- Claim C3 (amended): expiresAt equals the handler's request-time clock
plus exactly two hours, and equals createdAt (resp. uploadedAt) plus two
hours exactly when the database stamps the row at that same instant. -/
theorem ttl_amended (handlerNow dbNow : Nat)
    (sid txt mode lang cf fn fp ft : String) (fsz : Nat) (ext : String)
    (hclock : dbNow = handlerNow) :
    (createSessionRecord handlerNow dbNow sid txt mode lang cf).expiresAt
        = handlerNow + TTL_MS ∧
    (createSessionRecord handlerNow dbNow sid txt mode lang cf).expiresAt
        = (createSessionRecord handlerNow dbNow sid txt mode lang cf).createdAt
          + TTL_MS ∧
    (createUploadedFileRecord handlerNow dbNow sid fn fp ft fsz ext).expiresAt
        = (createUploadedFileRecord handlerNow dbNow sid fn fp ft fsz ext).uploadedAt
          + TTL_MS := by
  subst hclock
  exact ⟨rfl, rfl, rfl⟩

/-- Witness for the amended C3 at a concrete instant. -/
theorem ttl_amended_witness :
    (createSessionRecord 7 7 "s" "t" "academic" "English" "APA").expiresAt
        = 7 + TTL_MS ∧
    (createSessionRecord 7 7 "s" "t" "academic" "English" "APA").expiresAt
        = (createSessionRecord 7 7 "s" "t" "academic" "English" "APA").createdAt
          + TTL_MS ∧
    (createUploadedFileRecord 7 7 "s" "f.txt" "uploads/f" "text/plain" 1 "x").expiresAt
        = (createUploadedFileRecord 7 7 "s" "f.txt" "uploads/f" "text/plain" 1 "x").uploadedAt
          + TTL_MS :=
  ttl_amended 7 7 "s" "t" "academic" "English" "APA" "f.txt" "uploads/f"
    "text/plain" 1 "x" rfl

/-- Claim C4, counterexample: the sweep deletes with a strict comparison
(drizzle lt), so a record whose expiresAt equals the sweep instant
survives in both tables, refuting completeness for expiresAt ≤ now. -/
theorem deleteExpiredFiles_counterexample :
    sessionAtFive ∈ (deleteExpiredFiles 5 storeAtFive).sessions ∧
      sessionAtFive.expiresAt ≤ 5 ∧
      fileAtFive ∈ (deleteExpiredFiles 5 storeAtFive).files ∧
      fileAtFive.expiresAt ≤ 5 := by decide

/-- Claim C4 (amended): after the sweep at time now, no Session and no
UploadedFile record with expiresAt strictly before now remains; records
with expiresAt equal to now may survive until a later sweep. -/
theorem deleteExpiredFiles_complete (now : Nat) (s : Store) :
    (∀ r ∈ (deleteExpiredFiles now s).sessions, ¬ r.expiresAt < now) ∧
    (∀ f ∈ (deleteExpiredFiles now s).files, ¬ f.expiresAt < now) := by
  constructor <;> intro r hr <;>
    simpa using (List.mem_filter.mp hr).2

/-- Witness for the amended C4 at a concrete store. -/
theorem deleteExpiredFiles_complete_witness :
    sessionAtFive ∈ (deleteExpiredFiles 5 storeAtFive).sessions ∧
      ¬ sessionAtFive.expiresAt < 5 :=
  ⟨by decide, (deleteExpiredFiles_complete 5 storeAtFive).1 sessionAtFive (by decide)⟩

/-- Claim C5, counterexample: generateHighlights sorts the caller's claims
array in place (changes.sort), so for an unsorted input the array observed
after the call differs from the one passed in, refuting that the claims
sequence is left unmodified. -/
theorem generateHighlights_pure_counterexample :
    claimsArrayAfterCall
        [{ original := "a".data, paraphrased := "b".data,
           type := HighlightType.synonym, startIndex := 5, endIndex := 6 },
         { original := "c".data, paraphrased := "d".data,
           type := HighlightType.grammar, startIndex := 0, endIndex := 1 }] ≠
      [{ original := "a".data, paraphrased := "b".data,
         type := HighlightType.synonym, startIndex := 5, endIndex := 6 },
       { original := "c".data, paraphrased := "d".data,
         type := HighlightType.grammar, startIndex := 0, endIndex := 1 }] := by decide

/-- Claim C5 (amended): generateHighlights is deterministic, and its only
effect on its inputs is reordering the claims array in place into stable
startIndex order: the post-call array is a permutation of the input, a
second call leaves it unchanged, and rerunning on the mutated array
returns the same highlights. -/
theorem generateHighlights_pure (text : List Char) (changes : List HighlightChange) :
    (claimsArrayAfterCall changes).Perm changes ∧
    claimsArrayAfterCall (claimsArrayAfterCall changes) = claimsArrayAfterCall changes ∧
    generateHighlights text (claimsArrayAfterCall changes) =
      generateHighlights text changes := by
  have hidem : sortChanges (sortChanges changes) = sortChanges changes :=
    List.Sorted.insertionSort_eq (List.sorted_insertionSort changeLE changes)
  refine ⟨List.perm_insertionSort changeLE changes, hidem, ?_⟩
  show mergeOverlappingHighlights
      ((sortChanges (sortChanges changes)).filterMap (locateChange text)) =
    mergeOverlappingHighlights ((sortChanges changes).filterMap (locateChange text))
  rw [hidem]

/-- Claim C6: a paraphrase request with empty text, an unknown mode, or an
unknown citationFormat is rejected with status 400 before any session is
created or the oracle invoked; a request that omits language parses with
language defaulted to English. -/
theorem paraphrase_validation (handlerNow dbNow : Nat) (sessionId : String)
    (oracle : ParaphraseRequest → Except String (String × List HighlightChange))
    (input input2 : ParaphraseInput) (s : Store)
    (hbad : input.text = some "" ∨
      (∃ m, input.mode = some m ∧ m ∉ validModes) ∨
      (∃ cf, input.citationFormat = some cf ∧ cf ∉ validCitationFormats))
    (hlang : input2.language = none)
    (req : ParaphraseRequest) (hok : parseParaphraseRequest input2 = Except.ok req) :
    handleParaphrase handlerNow dbNow sessionId oracle input s =
      { status := 400, store := s, oracleCalled := false } ∧
    req.language = "English" := by
  obtain ⟨e, he⟩ := parseParaphraseRequest_error_of_bad input hbad
  constructor
  · unfold handleParaphrase
    rw [he]
  · rw [parseParaphraseRequest_language hok, hlang]
    rfl

/-- Witness for C6: a concrete empty-text request is rejected without side
effects, and a concrete language-less request parses as English. -/
theorem paraphrase_validation_witness :
    handleParaphrase 0 0 "sid" (fun _ => Except.error "down")
        { text := some "", mode := some "academic", language := none,
          citationFormat := none, styleMatching := none }
        { sessions := [], files := [] } =
      { status := 400, store := { sessions := [], files := [] },
        oracleCalled := false } ∧
    ({ text := "hi", mode := "academic", language := "English",
       citationFormat := "APA", styleMatching := false } : ParaphraseRequest).language
      = "English" :=
  paraphrase_validation 0 0 "sid" (fun _ => Except.error "down")
    { text := some "", mode := some "academic", language := none,
      citationFormat := none, styleMatching := none }
    { text := some "hi", mode := some "academic", language := none,
      citationFormat := none, styleMatching := none }
    { sessions := [], files := [] } (Or.inl rfl) rfl
    { text := "hi", mode := "academic", language := "English",
      citationFormat := "APA", styleMatching := false } rfl

/-- Claim C7: claims whose rewrittenPhrase has no occurrence at or after
their reported offset contribute nothing — the output over all claims
equals the output over the surviving claims alone, and the function is
total (never throws). -/
theorem generateHighlights_drops_unlocated (text : List Char)
    (changes : List HighlightChange) :
    generateHighlights text changes =
      generateHighlights text (changes.filter (changeSurvives text)) := by
  unfold generateHighlights sortChanges
  rw [← filter_insertionSort]
  congr 1
  rw [List.filter_congr (fun c _ => changeSurvives_eq_isSome text c),
    filterMap_filter_isSome]

/-- Claim C8: the documented scenario — rewritten text
"The cat sat down on the mat." and the single grammar claim for
"sat down" reported at offset 4 — reconstructs exactly the span [8, 16). -/
theorem generateHighlights_scenario :
    generateHighlights "The cat sat down on the mat.".data
      [{ original := "sat".data, paraphrased := "sat down".data,
         type := HighlightType.grammar, startIndex := 4, endIndex := 7 }] =
      [{ start := 8, stop := 16, type := HighlightType.grammar }] := by decide

/-- Claim C9: deleting a session twice is idempotent — the second
deleteUserSession removes nothing further and raises no error. -/
theorem deleteUserSession_idempotent (sessionId : String) (s : Store) :
    deleteUserSession false false sessionId
        (deleteUserSession false false sessionId s) =
      deleteUserSession false false sessionId s ∧
    (deleteUserSessionRun false false sessionId
        (deleteUserSession false false sessionId s)).2 = none := by
  constructor
  · simp [deleteUserSession, deleteUserSessionRun, deleteFilesBySession,
      deleteSessionRows, List.filter_filter]
  · rfl

/-- Claim C10: deleteUserSession never rejects (its catch swallows every
database error), so both session-clearing endpoints answer 200 whatever
deletion failures occur. -/
theorem session_cleanup_always_200 (fileDelFails sessDelFails : Bool)
    (sessionId : String) (s : Store) :
    (handleDeleteSession fileDelFails sessDelFails sessionId s).1.status = 200 ∧
    (handleCleanupSession fileDelFails sessDelFails sessionId s).1.status = 200 :=
  ⟨rfl, rfl⟩

end ScholarWriterPro
